import Mathlib

/-
Verification of the black-hole visualization core (src/blackhole.c) against
its natural-language specification.  The C code is shallowly embedded over ℝ:
float arithmetic becomes real arithmetic, raylib vectors become structures of
reals, per-fragment GLSL shaders become functions from inputs and uniforms to
an (optional, for discard) output color, and the per-frame render section of
main becomes a list of render events.
-/

namespace BlackHoleSim

/-- raylib Vector3: three float components. -/
structure Vector3 where
  x : ℝ
  y : ℝ
  z : ℝ

/-- raymath Vector3Distance: Euclidean distance between two points. -/
noncomputable def Vector3Distance (a b : Vector3) : ℝ :=
  Real.sqrt ((a.x - b.x) ^ 2 + (a.y - b.y) ^ 2 + (a.z - b.z) ^ 2)

/-- raylib Color: four 8-bit channels. -/
structure Color where
  r : ℕ
  g : ℕ
  b : ℕ
  a : ℕ
  deriving DecidableEq

/-- blackhole.c BlackHole struct. -/
structure BlackHole where
  position : Vector3
  mass : ℝ
  schwarzschildRadius : ℝ
  iscoRadius : ℝ

/-- blackhole.c Star struct. -/
structure Star where
  position : Vector3
  brightness : ℝ
  color : Color

/-- blackhole.c AccretionDisk struct. -/
structure AccretionDisk where
  innerRadius : ℝ
  outerRadius : ℝ
  rotationSpeed : ℝ
  temperature : ℝ
  hotColor : Color
  coolColor : Color

/-- raylib Camera3D. -/
structure Camera3D where
  position : Vector3
  target : Vector3
  up : Vector3
  fovy : ℝ
  projection : ℕ

/-- blackhole.c SimulationState struct. -/
structure SimulationState where
  camera : Camera3D
  blackHole : BlackHole
  disk : AccretionDisk
  stars : List Star
  time : ℝ
  timeDilation : ℝ
  showLensing : Bool
  showDisk : Bool
  showTimeEffects : Bool

/-- CalculateTimeDilation (blackhole.c lines 427-440): distance to the black
hole center, 0 at or inside the horizon, otherwise sqrt of the clamped
Schwarzschild factor. -/
noncomputable def CalculateTimeDilation (position : Vector3) (bh : BlackHole) : ℝ :=
  let distance := Vector3Distance position bh.position
  let rs := bh.schwarzschildRadius
  if distance ≤ rs then 0
  else
    let factor := 1 - rs / distance
    if factor ≤ 0 then 0
    else Real.sqrt factor

/-- CartesianToPolar (blackhole.c lines 442-447). -/
noncomputable def CartesianToPolar (pos : Vector3) : Vector3 :=
  let r := Real.sqrt (pos.x * pos.x + pos.y * pos.y + pos.z * pos.z)
  let theta := Real.arctan (pos.z / pos.x)
  let phi := Real.arccos (pos.y / r)
  ⟨r, theta, phi⟩

/-- UpdateSimulation (blackhole.c lines 366-377), with the external
GetFrameTime() passed in as `frameTime`: when showTimeEffects is on, the time
dilation is recomputed from the camera position and the frame delta is scaled
by it before accumulating into `time`; otherwise the raw delta accumulates. -/
noncomputable def UpdateSimulation (sim : SimulationState) (frameTime : ℝ) : SimulationState :=
  if sim.showTimeEffects then
    let td := CalculateTimeDilation sim.camera.position sim.blackHole
    { sim with timeDilation := td, time := sim.time + frameTime * td }
  else
    { sim with time := sim.time + frameTime }

/-- Running UpdateSimulation over a sequence of frame deltas. -/
noncomputable def iterateUpdate (sim : SimulationState) (deltas : List ℝ) : SimulationState :=
  List.foldl UpdateSimulation sim deltas

/-- GLSL fract: the fractional part of a real. -/
noncomputable def glslFract (x : ℝ) : ℝ := x - ⌊x⌋

/-- GLSL two-argument atan (atan2), embedded as the argument of the complex
number x + y·i (range (-π, π], matching atan2's convention). -/
noncomputable def atan2 (y x : ℝ) : ℝ := Complex.arg ⟨x, y⟩

/-- The disk shader's hash-based pseudo-noise (blackhole.c lines 123-125):
fract(sin(dot(p, vec2(127.1, 311.7))) * 43758.5453). -/
noncomputable def noise (a b : ℝ) : ℝ :=
  glslFract (Real.sin (a * 127.1 + b * 311.7) * 43758.5453)

/-- GLSL mix on vec3: componentwise linear blend x*(1-t) + y*t. -/
noncomputable def mix3 (a b : Vector3) (t : ℝ) : Vector3 :=
  ⟨a.x * (1 - t) + b.x * t, a.y * (1 - t) + b.y * t, a.z * (1 - t) + b.z * t⟩

/-- GLSL vec4 (an output fragment color: rgb and alpha). -/
structure Vec4 where
  x : ℝ
  y : ℝ
  z : ℝ
  w : ℝ

/-- The six uniforms of the disk shader program. -/
structure DiskUniforms where
  time : ℝ
  blackHolePos : Vector3
  innerRadius : ℝ
  outerRadius : ℝ
  hotColor : Vector3
  coolColor : Vector3

/-- diskFragmentShader (blackhole.c lines 111-158): planar radius and angle of
the world position relative to the black hole, discard outside the annulus,
then temperature gradient, Keplerian-like rotation, two-octave noise
turbulence, hot/cool blend, Doppler tint and alpha.  `none` models discard. -/
noncomputable def diskFragmentShader (u : DiskUniforms) (worldPos : Vector3) : Option Vec4 :=
  let posx := worldPos.x - u.blackHolePos.x
  let posy := worldPos.z - u.blackHolePos.z
  let r := Real.sqrt (posx ^ 2 + posy ^ 2)
  let angle := atan2 posy posx
  if r < u.innerRadius ∨ u.outerRadius < r then none
  else
    let temp0 := 1 - (r - u.innerRadius) / (u.outerRadius - u.innerRadius)
    let temp := temp0 ^ (0.5 : ℝ)
    let rotSpeed := 1 / Real.sqrt r
    let angle2 := angle + u.time * rotSpeed
    let nc1 := angle2 * 3 + u.time * 0.1
    let nc2 := r * 0.1
    let turbulence := noise nc1 nc2 * 0.5 + noise (nc1 * 2) (nc2 * 2) * 0.25
    let dopplerShift := Real.sin angle2 * 0.3
    let color := mix3 u.coolColor u.hotColor (temp + turbulence * 0.3)
    let alpha := temp * (0.7 + turbulence * 0.3)
    some ⟨color.x * (1 + dopplerShift), color.y * (1 + dopplerShift),
      color.z * (1 + dopplerShift), alpha⟩

/-- The three uniforms of the lens shader program. -/
structure LensUniforms where
  lensCenter : ℝ × ℝ
  lensStrength : ℝ
  screenSize : ℝ × ℝ

/-- lensFragmentShader (blackhole.c lines 62-96): radial inverse-distance
deflection toward lensCenter; opaque black at the center, for rays that fall
in (newR ≤ 0) and for rays that leave [0,1]², otherwise the offscreen texture
sampled at the remapped coordinate.  `texture0` is the offscreen texture. -/
noncomputable def lensFragmentShader (u : LensUniforms) (texture0 : ℝ × ℝ → Vec4)
    (fragTexCoord : ℝ × ℝ) : Vec4 :=
  let dx := fragTexCoord.1 * u.screenSize.1 - u.lensCenter.1
  let dy := fragTexCoord.2 * u.screenSize.2 - u.lensCenter.2
  let r := Real.sqrt (dx ^ 2 + dy ^ 2)
  if 0 < r then
    let deflection := u.lensStrength / r
    let newR := r - deflection
    if 0 < newR then
      let newUVx := (u.lensCenter.1 + dx / r * newR) / u.screenSize.1
      let newUVy := (u.lensCenter.2 + dy / r * newR) / u.screenSize.2
      if 0 ≤ newUVx ∧ newUVx ≤ 1 ∧ 0 ≤ newUVy ∧ newUVy ≤ 1 then
        texture0 (newUVx, newUVy)
      else ⟨0, 0, 0, 1⟩
    else ⟨0, 0, 0, 1⟩
  else ⟨0, 0, 0, 1⟩

/-- raylib CAMERA_PERSPECTIVE. -/
def CAMERA_PERSPECTIVE : ℕ := 0

/-- MAX_STARS (blackhole.c line 10). -/
def MAX_STARS : ℕ := 1000

/-- One star of InitSimulation's loop (blackhole.c lines 348-357): integer
coordinates from GetRandomValue(-100,100), brightness GetRandomValue(50,255)
divided by 255, and a grayscale color clamped back to a byte (the C cast of
brightness×255 to unsigned char). -/
noncomputable def makeStar (posInt : ℤ × ℤ × ℤ) (brightInt : ℤ) : Star :=
  let brightness : ℝ := (brightInt : ℝ) / 255
  { position := ⟨(posInt.1 : ℝ), (posInt.2.1 : ℝ), (posInt.2.2 : ℝ)⟩
    brightness := brightness
    color := ⟨(⌊brightness * 255⌋).toNat % 256, (⌊brightness * 255⌋).toNat % 256,
      (⌊brightness * 255⌋).toNat % 256, 255⟩ }

/-- InitSimulation (blackhole.c lines 326-364).  The external random source
GetRandomValue is passed in: `starPosInt i` holds star i's three coordinate
draws and `starBrightInt i` its brightness draw.  disk.temperature is never
assigned and keeps the zero initialization of `SimulationState sim = {0}`. -/
noncomputable def InitSimulation (starPosInt : ℕ → ℤ × ℤ × ℤ) (starBrightInt : ℕ → ℤ) :
    SimulationState :=
  let blackHole : BlackHole :=
    { position := ⟨0, 0, 0⟩, mass := 1, schwarzschildRadius := 2, iscoRadius := 6 }
  { camera := ⟨⟨0, 5, 30⟩, ⟨0, 0, 0⟩, ⟨0, 1, 0⟩, 45, CAMERA_PERSPECTIVE⟩
    blackHole := blackHole
    disk := ⟨blackHole.iscoRadius, 20, 1, 0, ⟨255, 200, 50, 255⟩, ⟨200, 50, 25, 255⟩⟩
    stars := (List.range MAX_STARS).map (fun i => makeStar (starPosInt i) (starBrightInt i))
    time := 0
    timeDilation := 1
    showLensing := true
    showDisk := true
    showTimeEffects := true }

/-- A primitive draw call issued to the rendering library. -/
inductive DrawCmd where
  | cube (position : Vector3) (width height length : ℝ) (c : Color)
  | sphere (center : Vector3) (radius : ℝ) (c : Color)
  | circle3D (center : Vector3) (radius : ℝ) (c : Color)

/-- DrawStarfield (blackhole.c lines 391-401): for each star in order, draw a
small cube at its position with its stored color unless its distance to the
black hole center is at most 2×schwarzschildRadius. -/
noncomputable def DrawStarfield (sim : SimulationState) : List DrawCmd :=
  List.foldl
    (fun acc star =>
      if sim.blackHole.schwarzschildRadius * 2 <
          Vector3Distance star.position sim.blackHole.position
      then acc ++ [DrawCmd.cube star.position 0.2 0.2 0.2 star.color]
      else acc)
    [] sim.stars

/-- The two shader programs main loads. -/
inductive ShaderId where
  | lensShaderId
  | diskShaderId
  deriving DecidableEq

/-- The uniform names main looks up (blackhole.c lines 187-196). -/
inductive UniformName where
  | lensCenter
  | lensStrength
  | screenSize
  | time
  | blackHolePos
  | innerRadius
  | outerRadius
  | hotColor
  | coolColor
  deriving DecidableEq

/-- One observable rendering action of the frame body. -/
inductive RenderEvent where
  | clearBackground
  | beginTextureMode
  | endTextureMode
  | beginMode3D
  | endMode3D
  | setShaderValue (s : ShaderId) (u : UniformName)
  | beginShaderMode (s : ShaderId)
  | endShaderMode
  | drawStarfieldCall
  | drawDiskCall
  | drawBlackHoleCall
  | drawTextureRec
  deriving DecidableEq

/-- Whether an event sets a disk-shader uniform. -/
def isDiskUniformSet : RenderEvent → Bool
  | .setShaderValue .diskShaderId _ => true
  | _ => false

/-- The six disk-shader uniforms (blackhole.c lines 191-196). -/
def diskUniformList : List UniformName :=
  [.time, .blackHolePos, .innerRadius, .outerRadius, .hotColor, .coolColor]

/-- DrawAccretionDisk (blackhole.c lines 403-415) as events: bind the disk
shader, draw the annulus cylinder, unbind. -/
def DrawAccretionDiskEvents : List RenderEvent :=
  [.beginShaderMode .diskShaderId, .drawDiskCall, .endShaderMode]

/-- The rendering section of one main-loop iteration (blackhole.c lines
238-296) as the sequence of events it issues.  The lensed path renders the
scene into the offscreen target and composites it through the lens shader
(whose three uniforms it sets); the direct path renders to the screen and sets
the six disk uniforms before the disk draw when the disk is shown. -/
def renderFrameEvents (showLensing showDisk : Bool) : List RenderEvent :=
  [.clearBackground] ++
  (if showLensing then
    [.beginTextureMode, .clearBackground, .beginMode3D, .drawStarfieldCall] ++
    (if showDisk then DrawAccretionDiskEvents else []) ++
    [.drawBlackHoleCall, .endMode3D, .endTextureMode,
     .setShaderValue .lensShaderId .lensCenter,
     .setShaderValue .lensShaderId .lensStrength,
     .setShaderValue .lensShaderId .screenSize,
     .beginShaderMode .lensShaderId, .drawTextureRec, .endShaderMode]
  else
    [.beginMode3D, .drawStarfieldCall] ++
    (if showDisk then
      [.setShaderValue .diskShaderId .time,
       .setShaderValue .diskShaderId .blackHolePos,
       .setShaderValue .diskShaderId .innerRadius,
       .setShaderValue .diskShaderId .outerRadius,
       .setShaderValue .diskShaderId .hotColor,
       .setShaderValue .diskShaderId .coolColor] ++ DrawAccretionDiskEvents
    else []) ++
    [.drawBlackHoleCall, .endMode3D])

/-- A concrete simulation state for instantiating the frame lemmas: the
initialized state with every position draw 0 and every brightness draw 50,
with showTimeEffects switched off. -/
noncomputable def sampleStateOff : SimulationState :=
  { InitSimulation (fun _ => (0, 0, 0)) (fun _ => 50) with showTimeEffects := false }

/-- Unfolded form of CalculateTimeDilation outside the horizon. -/
theorem calculateTimeDilation_of_far (pos : Vector3) (bh : BlackHole)
    (hrs : 0 < bh.schwarzschildRadius)
    (h : bh.schwarzschildRadius < Vector3Distance pos bh.position) :
    CalculateTimeDilation pos bh =
      Real.sqrt (1 - bh.schwarzschildRadius / Vector3Distance pos bh.position) := by
  have hd : 0 < Vector3Distance pos bh.position := lt_trans hrs h
  have hfac : 0 < 1 - bh.schwarzschildRadius / Vector3Distance pos bh.position := by
    have : bh.schwarzschildRadius / Vector3Distance pos bh.position < 1 :=
      (div_lt_one hd).2 h
    linarith
  unfold CalculateTimeDilation
  rw [if_neg (not_le.2 h), if_neg (not_le.2 hfac)]

/-- C1: CalculateTimeDilation computes the Euclidean distance d from the
observer to the black hole center; it returns exactly 0 when d ≤
schwarzschildRadius; otherwise with factor = 1 - schwarzschildRadius/d it
returns 0 when factor ≤ 0 and sqrt(factor) otherwise. -/
theorem C1_timeDilation_piecewise (pos : Vector3) (bh : BlackHole) (d : ℝ)
    (hd : d = Real.sqrt ((pos.x - bh.position.x) ^ 2 + (pos.y - bh.position.y) ^ 2 +
      (pos.z - bh.position.z) ^ 2)) :
    (d ≤ bh.schwarzschildRadius → CalculateTimeDilation pos bh = 0) ∧
    (bh.schwarzschildRadius < d → 1 - bh.schwarzschildRadius / d ≤ 0 →
      CalculateTimeDilation pos bh = 0) ∧
    (bh.schwarzschildRadius < d → 0 < 1 - bh.schwarzschildRadius / d →
      CalculateTimeDilation pos bh = Real.sqrt (1 - bh.schwarzschildRadius / d)) := by
  have hdist : Vector3Distance pos bh.position = d := by rw [hd]; rfl
  unfold CalculateTimeDilation
  rw [hdist]
  refine ⟨fun h => by rw [if_pos h], fun h1 h2 => ?_, fun h1 h2 => ?_⟩
  · rw [if_neg (not_le.2 h1), if_pos h2]
  · rw [if_neg (not_le.2 h1), if_neg (not_le.2 h2)]

/-- C1 witness: at observer (0,0,1) with the initial black hole (center at the
origin, schwarzschildRadius 2) the distance is 1 ≤ 2 and the dilation is 0. -/
theorem C1_witness :
    ((1 : ℝ) = Real.sqrt (((0:ℝ) - 0) ^ 2 + ((0:ℝ) - 0) ^ 2 + ((1:ℝ) - 0) ^ 2)) ∧
    ((1 : ℝ) ≤ 2) ∧
    CalculateTimeDilation ⟨0, 0, 1⟩ ⟨⟨0, 0, 0⟩, 1, 2, 6⟩ = 0 := by
  have hd : (1 : ℝ) = Real.sqrt (((0:ℝ) - 0) ^ 2 + ((0:ℝ) - 0) ^ 2 + ((1:ℝ) - 0) ^ 2) := by
    rw [show (((0:ℝ) - 0) ^ 2 + ((0:ℝ) - 0) ^ 2 + ((1:ℝ) - 0) ^ 2) = 1 by norm_num,
      Real.sqrt_one]
  exact ⟨hd, by norm_num,
    (C1_timeDilation_piecewise ⟨0, 0, 1⟩ ⟨⟨0, 0, 0⟩, 1, 2, 6⟩ 1 hd).1 (by norm_num)⟩

/-- C2: outside the horizon (with positive Schwarzschild radius) the dilation
lies in (0,1], is strictly increasing in the distance, and at distance
2×schwarzschildRadius with schwarzschildRadius = 2 it equals sqrt(0.5). -/
theorem C2_timeDilation_range_mono (bh : BlackHole) (p1 p2 : Vector3)
    (hrs : 0 < bh.schwarzschildRadius)
    (h1 : bh.schwarzschildRadius < Vector3Distance p1 bh.position) :
    (0 < CalculateTimeDilation p1 bh ∧ CalculateTimeDilation p1 bh ≤ 1) ∧
    (Vector3Distance p1 bh.position < Vector3Distance p2 bh.position →
      CalculateTimeDilation p1 bh < CalculateTimeDilation p2 bh) ∧
    (bh.schwarzschildRadius = 2 → Vector3Distance p1 bh.position = 4 →
      CalculateTimeDilation p1 bh = Real.sqrt 0.5) := by
  have hd1 : 0 < Vector3Distance p1 bh.position := lt_trans hrs h1
  have hfac1 : 0 < 1 - bh.schwarzschildRadius / Vector3Distance p1 bh.position := by
    have : bh.schwarzschildRadius / Vector3Distance p1 bh.position < 1 :=
      (div_lt_one hd1).2 h1
    linarith
  have heq1 := calculateTimeDilation_of_far p1 bh hrs h1
  refine ⟨⟨?_, ?_⟩, ?_, ?_⟩
  · rw [heq1]; exact Real.sqrt_pos.2 hfac1
  · rw [heq1]
    have hnn : 0 ≤ bh.schwarzschildRadius / Vector3Distance p1 bh.position :=
      div_nonneg (le_of_lt hrs) (le_of_lt hd1)
    exact Real.sqrt_le_one.2 (by linarith)
  · intro h12
    have h2 : bh.schwarzschildRadius < Vector3Distance p2 bh.position := lt_trans h1 h12
    have heq2 := calculateTimeDilation_of_far p2 bh hrs h2
    rw [heq1, heq2]
    have hlt : bh.schwarzschildRadius / Vector3Distance p2 bh.position <
        bh.schwarzschildRadius / Vector3Distance p1 bh.position :=
      div_lt_div_of_pos_left hrs hd1 h12
    exact Real.sqrt_lt_sqrt (le_of_lt hfac1) (by linarith)
  · intro hrs2 hd4
    rw [heq1, hrs2, hd4]
    norm_num

/-- C2 witness: black hole at the origin with schwarzschildRadius 2; observer
at distance 4 = 2×schwarzschildRadius gets dilation sqrt(0.5), and moving to
distance 8 strictly increases the dilation. -/
theorem C2_witness :
    ((0:ℝ) < 2 ∧ (2:ℝ) < Vector3Distance ⟨4, 0, 0⟩ ⟨0, 0, 0⟩) ∧
    CalculateTimeDilation ⟨4, 0, 0⟩ ⟨⟨0, 0, 0⟩, 1, 2, 6⟩ = Real.sqrt 0.5 ∧
    CalculateTimeDilation ⟨4, 0, 0⟩ ⟨⟨0, 0, 0⟩, 1, 2, 6⟩ <
      CalculateTimeDilation ⟨8, 0, 0⟩ ⟨⟨0, 0, 0⟩, 1, 2, 6⟩ := by
  have h4 : Vector3Distance ⟨4, 0, 0⟩ ⟨0, 0, 0⟩ = 4 := by
    unfold Vector3Distance
    rw [show (((4:ℝ) - 0) ^ 2 + ((0:ℝ) - 0) ^ 2 + ((0:ℝ) - 0) ^ 2) = 4 ^ 2 by norm_num]
    exact Real.sqrt_sq (by norm_num)
  have h8 : Vector3Distance ⟨8, 0, 0⟩ ⟨0, 0, 0⟩ = 8 := by
    unfold Vector3Distance
    rw [show (((8:ℝ) - 0) ^ 2 + ((0:ℝ) - 0) ^ 2 + ((0:ℝ) - 0) ^ 2) = 8 ^ 2 by norm_num]
    exact Real.sqrt_sq (by norm_num)
  have H := C2_timeDilation_range_mono ⟨⟨0, 0, 0⟩, 1, 2, 6⟩ ⟨4, 0, 0⟩ ⟨8, 0, 0⟩
    (by norm_num) (by rw [h4]; norm_num)
  exact ⟨⟨by norm_num, by rw [h4]; norm_num⟩,
    H.2.2 rfl h4,
    H.2.1 (by rw [h4, h8]; norm_num)⟩

/-- Discard condition of the disk fragment shader, in terms of the planar
radius of the world position relative to the black hole center. -/
theorem diskFragmentShader_eq_none_iff (u : DiskUniforms) (wp : Vector3) :
    diskFragmentShader u wp = none ↔
      (Real.sqrt ((wp.x - u.blackHolePos.x) ^ 2 + (wp.z - u.blackHolePos.z) ^ 2) <
          u.innerRadius ∨
        u.outerRadius <
          Real.sqrt ((wp.x - u.blackHolePos.x) ^ 2 + (wp.z - u.blackHolePos.z) ^ 2)) := by
  simp only [diskFragmentShader]
  split_ifs with h
  · exact iff_of_true rfl h
  · simp [h]

/-- C3 (amended): a disk fragment is discarded exactly when its planar radius
r is strictly below innerRadius or strictly above outerRadius; in particular
every fragment with r strictly between the bounds is kept, and a fragment with
r exactly at either bound is also kept (not discarded). -/
theorem C3_disk_discard_iff (u : DiskUniforms) (wp : Vector3) :
    diskFragmentShader u wp = none ↔
      (Real.sqrt ((wp.x - u.blackHolePos.x) ^ 2 + (wp.z - u.blackHolePos.z) ^ 2) <
          u.innerRadius ∨
        u.outerRadius <
          Real.sqrt ((wp.x - u.blackHolePos.x) ^ 2 + (wp.z - u.blackHolePos.z) ^ 2)) :=
  diskFragmentShader_eq_none_iff u wp

/-- C3 counterexample: with the spec's uniforms (innerRadius 6, outerRadius 20,
black hole at the origin) the fragment at world position (6,0,0) has planar
radius exactly innerRadius = 6, yet it is NOT discarded, contradicting the
claim that a radius exactly at either bound is discarded. -/
theorem C3_counterexample :
    Real.sqrt (((6:ℝ) - 0) ^ 2 + ((0:ℝ) - 0) ^ 2) = 6 ∧
    diskFragmentShader ⟨0, ⟨0, 0, 0⟩, 6, 20, ⟨1, 0.8, 0.2⟩, ⟨0.8, 0.2, 0.1⟩⟩ ⟨6, 0, 0⟩ ≠
      none := by
  have h6 : Real.sqrt (((6:ℝ) - 0) ^ 2 + ((0:ℝ) - 0) ^ 2) = 6 := by
    rw [show ((6:ℝ) - 0) ^ 2 + ((0:ℝ) - 0) ^ 2 = 6 ^ 2 by norm_num]
    exact Real.sqrt_sq (by norm_num)
  refine ⟨h6, fun hnone => ?_⟩
  rcases (diskFragmentShader_eq_none_iff _ _).1 hnone with h | h
  · rw [h6] at h; exact absurd h (by norm_num)
  · rw [h6] at h; exact absurd h (by norm_num)

/-- C6: the lens fragment shader outputs opaque black for a pixel exactly at
lensCenter (r = 0), for a deflected radius newR = r - lensStrength/r ≤ 0, and
for a remapped coordinate outside [0,1]×[0,1]; otherwise it outputs the
sampled offscreen-texture color unchanged. -/
theorem C6_lens_shader_cases (u : LensUniforms) (texture0 : ℝ × ℝ → Vec4)
    (tc : ℝ × ℝ) (r newR ux uy : ℝ)
    (hr : r = Real.sqrt ((tc.1 * u.screenSize.1 - u.lensCenter.1) ^ 2 +
      (tc.2 * u.screenSize.2 - u.lensCenter.2) ^ 2))
    (hnewR : newR = r - u.lensStrength / r)
    (hux : ux = (u.lensCenter.1 + (tc.1 * u.screenSize.1 - u.lensCenter.1) / r * newR) /
      u.screenSize.1)
    (huy : uy = (u.lensCenter.2 + (tc.2 * u.screenSize.2 - u.lensCenter.2) / r * newR) /
      u.screenSize.2) :
    (r = 0 → lensFragmentShader u texture0 tc = ⟨0, 0, 0, 1⟩) ∧
    (0 < r → newR ≤ 0 → lensFragmentShader u texture0 tc = ⟨0, 0, 0, 1⟩) ∧
    (0 < r → 0 < newR → ¬(0 ≤ ux ∧ ux ≤ 1 ∧ 0 ≤ uy ∧ uy ≤ 1) →
      lensFragmentShader u texture0 tc = ⟨0, 0, 0, 1⟩) ∧
    (0 < r → 0 < newR → (0 ≤ ux ∧ ux ≤ 1 ∧ 0 ≤ uy ∧ uy ≤ 1) →
      lensFragmentShader u texture0 tc = texture0 (ux, uy)) := by
  subst hr hnewR hux huy
  simp only [lensFragmentShader]
  refine ⟨fun h0 => ?_, fun hpos hle => ?_, fun hpos hnpos hout => ?_,
    fun hpos hnpos hin => ?_⟩
  · rw [if_neg (not_lt.2 (le_of_eq h0))]
  · rw [if_pos hpos, if_neg (not_lt.2 hle)]
  · rw [if_pos hpos, if_pos hnpos, if_neg hout]
  · rw [if_pos hpos, if_pos hnpos, if_pos hin]

/-- C6 witness: at the screen midpoint (texcoord (0.5, 0.5) with the 1024×768
viewport and lensCenter (512, 384)) the radius is 0 and the output is opaque
black, whatever the offscreen texture holds. -/
theorem C6_witness :
    ((0:ℝ) = Real.sqrt (((0.5:ℝ) * 1024 - 512) ^ 2 + ((0.5:ℝ) * 768 - 384) ^ 2)) ∧
    lensFragmentShader ⟨(512, 384), 10000, (1024, 768)⟩ (fun _ => ⟨1, 1, 1, 1⟩) (0.5, 0.5) =
      ⟨0, 0, 0, 1⟩ := by
  have h0 : (0:ℝ) = Real.sqrt (((0.5:ℝ) * 1024 - 512) ^ 2 + ((0.5:ℝ) * 768 - 384) ^ 2) := by
    rw [show ((0.5:ℝ) * 1024 - 512) ^ 2 + ((0.5:ℝ) * 768 - 384) ^ 2 = 0 by norm_num,
      Real.sqrt_zero]
  exact ⟨h0, (C6_lens_shader_cases ⟨(512, 384), 10000, (1024, 768)⟩ (fun _ => ⟨1, 1, 1, 1⟩)
    (0.5, 0.5) 0 (0 - 10000 / 0)
    ((512 + ((0.5:ℝ) * 1024 - 512) / 0 * (0 - 10000 / 0)) / 1024)
    ((384 + ((0.5:ℝ) * 768 - 384) / 0 * (0 - 10000 / 0)) / 768)
    h0 rfl rfl rfl).1 rfl⟩

/-- C7: for a non-discarded disk fragment at planar radius r and angle θ, the
temperature is ((outerRadius - r)/(outerRadius - innerRadius))^0.5, the color
is hotColor/coolColor blended by temperature + 0.3×turbulence and scaled by
1 + 0.3×sin(θ2) where θ2 is θ advanced by time×(1/sqrt r), and the alpha is
temperature × (0.7 + 0.3×turbulence). -/
theorem C7_disk_shading (u : DiskUniforms) (wp : Vector3) (r θ : ℝ)
    (hr : r = Real.sqrt ((wp.x - u.blackHolePos.x) ^ 2 + (wp.z - u.blackHolePos.z) ^ 2))
    (hθ : θ = atan2 (wp.z - u.blackHolePos.z) (wp.x - u.blackHolePos.x))
    (hio : u.innerRadius < u.outerRadius)
    (h1 : u.innerRadius ≤ r) (h2 : r ≤ u.outerRadius) :
    diskFragmentShader u wp =
      (let θ2 := θ + u.time * (1 / Real.sqrt r)
       let turb := noise (θ2 * 3 + u.time * 0.1) (r * 0.1) * 0.5 +
         noise ((θ2 * 3 + u.time * 0.1) * 2) ((r * 0.1) * 2) * 0.25
       let temperature := ((u.outerRadius - r) / (u.outerRadius - u.innerRadius)) ^ (0.5 : ℝ)
       let c := mix3 u.coolColor u.hotColor (temperature + turb * 0.3)
       some ⟨c.x * (1 + Real.sin θ2 * 0.3), c.y * (1 + Real.sin θ2 * 0.3),
         c.z * (1 + Real.sin θ2 * 0.3), temperature * (0.7 + turb * 0.3)⟩) := by
  have hbase : 1 - (r - u.innerRadius) / (u.outerRadius - u.innerRadius) =
      (u.outerRadius - r) / (u.outerRadius - u.innerRadius) := by
    have hne : u.outerRadius - u.innerRadius ≠ 0 := sub_ne_zero.2 (ne_of_gt hio)
    field_simp
  simp only [diskFragmentShader]
  rw [← hr, ← hθ]
  rw [if_neg (not_or.2 ⟨not_lt.2 h1, not_lt.2 h2⟩), hbase]

/-- C7 witness: with the spec's uniforms (time 0, black hole at the origin,
innerRadius 6, outerRadius 20, the direct-path hot/cool colors) at world
position (13, 0, 0) the radius 13 lies inside the annulus and the output is
the claimed temperature/turbulence/Doppler combination. -/
theorem C7_witness :
    ((13:ℝ) = Real.sqrt (((13:ℝ) - 0) ^ 2 + ((0:ℝ) - 0) ^ 2)) ∧
    ((6:ℝ) < 20 ∧ (6:ℝ) ≤ 13 ∧ (13:ℝ) ≤ 20) ∧
    diskFragmentShader ⟨0, ⟨0, 0, 0⟩, 6, 20, ⟨1, 0.8, 0.2⟩, ⟨0.8, 0.2, 0.1⟩⟩ ⟨13, 0, 0⟩ =
      (let θ2 := atan2 ((0:ℝ) - 0) ((13:ℝ) - 0) + 0 * (1 / Real.sqrt 13)
       let turb := noise (θ2 * 3 + 0 * 0.1) (13 * 0.1) * 0.5 +
         noise ((θ2 * 3 + 0 * 0.1) * 2) ((13 * 0.1) * 2) * 0.25
       let temperature := (((20:ℝ) - 13) / ((20:ℝ) - 6)) ^ (0.5 : ℝ)
       let c := mix3 ⟨0.8, 0.2, 0.1⟩ ⟨1, 0.8, 0.2⟩ (temperature + turb * 0.3)
       some ⟨c.x * (1 + Real.sin θ2 * 0.3), c.y * (1 + Real.sin θ2 * 0.3),
         c.z * (1 + Real.sin θ2 * 0.3), temperature * (0.7 + turb * 0.3)⟩) := by
  have hr13 : (13:ℝ) = Real.sqrt (((13:ℝ) - 0) ^ 2 + ((0:ℝ) - 0) ^ 2) := by
    rw [show ((13:ℝ) - 0) ^ 2 + ((0:ℝ) - 0) ^ 2 = 13 ^ 2 by norm_num]
    exact (Real.sqrt_sq (by norm_num)).symm
  exact ⟨hr13, ⟨by norm_num, by norm_num, by norm_num⟩,
    C7_disk_shading ⟨0, ⟨0, 0, 0⟩, 6, 20, ⟨1, 0.8, 0.2⟩, ⟨0.8, 0.2, 0.1⟩⟩ ⟨13, 0, 0⟩ 13
      (atan2 ((0:ℝ) - 0) ((13:ℝ) - 0)) hr13 rfl (by norm_num) (by norm_num) (by norm_num)⟩

/-- C4 (the code bug): in the lensed render path with the disk shown, the disk
draw call runs yet no disk-shader uniform is set anywhere in the frame (so the
draw consumes stale or default uniforms); in the direct path all six are set
before the disk draw, as the claim demands for both paths. -/
theorem C4_disk_uniforms_lensed_path :
    (RenderEvent.drawDiskCall ∈ renderFrameEvents true true ∧
      List.filter isDiskUniformSet (renderFrameEvents true true) = []) ∧
    (∀ u ∈ diskUniformList,
      RenderEvent.setShaderValue .diskShaderId u ∈
        List.takeWhile (fun e => e != RenderEvent.drawDiskCall)
          (renderFrameEvents false true)) := by
  refine ⟨⟨?_, ?_⟩, ?_⟩
  · decide
  · decide
  · decide

/-- CalculateTimeDilation is never negative. -/
theorem calculateTimeDilation_nonneg (pos : Vector3) (bh : BlackHole) :
    0 ≤ CalculateTimeDilation pos bh := by
  simp only [CalculateTimeDilation]
  split_ifs
  · exact le_refl 0
  · exact le_refl 0
  · exact Real.sqrt_nonneg _

/-- One UpdateSimulation step never decreases time for a nonnegative delta. -/
theorem update_time_mono (sim : SimulationState) (δ : ℝ) (h : 0 ≤ δ) :
    sim.time ≤ (UpdateSimulation sim δ).time := by
  unfold UpdateSimulation
  split_ifs with hte
  · have htd := calculateTimeDilation_nonneg sim.camera.position sim.blackHole
    simp only
    nlinarith
  · simpa using h

/-- UpdateSimulation does not change the showTimeEffects toggle. -/
theorem update_showTimeEffects (sim : SimulationState) (δ : ℝ) :
    (UpdateSimulation sim δ).showTimeEffects = sim.showTimeEffects := by
  unfold UpdateSimulation
  split_ifs <;> rfl

/-- With showTimeEffects off, one UpdateSimulation step adds the raw delta. -/
theorem update_time_off (sim : SimulationState) (δ : ℝ) (h : sim.showTimeEffects = false) :
    (UpdateSimulation sim δ).time = sim.time + δ := by
  unfold UpdateSimulation
  rw [if_neg (by simp [h])]

/-- Time is monotone along any sequence of nonnegative frame deltas. -/
theorem iterate_time_mono (deltas : List ℝ) :
    ∀ sim : SimulationState, (∀ d ∈ deltas, 0 ≤ d) →
      sim.time ≤ (iterateUpdate sim deltas).time := by
  induction deltas with
  | nil => intro sim _; simp [iterateUpdate]
  | cons d t ih =>
    intro sim h
    have h1 : (0:ℝ) ≤ d := h d (List.mem_cons_self d t)
    have h2 : ∀ x ∈ t, (0:ℝ) ≤ x := fun x hx => h x (List.mem_cons_of_mem d hx)
    calc sim.time ≤ (UpdateSimulation sim d).time := update_time_mono sim d h1
      _ ≤ (iterateUpdate (UpdateSimulation sim d) t).time := ih (UpdateSimulation sim d) h2
      _ = (iterateUpdate sim (d :: t)).time := rfl

/-- With showTimeEffects off, N frames of delta δ accumulate exactly N×δ. -/
theorem iterate_time_replicate (δ : ℝ) (N : ℕ) :
    ∀ sim : SimulationState, sim.showTimeEffects = false →
      (iterateUpdate sim (List.replicate N δ)).time = sim.time + N * δ := by
  induction N with
  | zero => intro sim _; simp [iterateUpdate]
  | succ n ih =>
    intro sim h
    have hstep : iterateUpdate sim (List.replicate (n + 1) δ) =
        iterateUpdate (UpdateSimulation sim δ) (List.replicate n δ) := by
      rw [List.replicate_succ]; rfl
    rw [hstep, ih (UpdateSimulation sim δ) (by rw [update_showTimeEffects, h]),
      update_time_off sim δ h]
    push_cast
    ring

/-- C5: over any sequence of positive real frame deltas the accumulated time
never decreases, for either toggle state; and with showTimeEffects off, N
frames of real delta δ accumulate exactly N×δ (the delta is not scaled). -/
theorem C5_update_time_accumulation (sim : SimulationState) (deltas : List ℝ)
    (N : ℕ) (δ : ℝ) (hpos : ∀ d ∈ deltas, 0 < d) :
    sim.time ≤ (iterateUpdate sim deltas).time ∧
    (sim.showTimeEffects = false →
      (iterateUpdate sim (List.replicate N δ)).time = sim.time + N * δ) :=
  ⟨iterate_time_mono deltas sim (fun d hd => le_of_lt (hpos d hd)),
    fun h => iterate_time_replicate δ N sim h⟩

/-- C5 witness: from the initialized state with showTimeEffects off, one frame
of delta 1 does not decrease time, and 3 frames of delta 2 add exactly 6. -/
theorem C5_witness :
    (∀ d ∈ [(1:ℝ)], 0 < d) ∧
    sampleStateOff.time ≤ (iterateUpdate sampleStateOff [(1:ℝ)]).time ∧
    (iterateUpdate sampleStateOff (List.replicate 3 (2:ℝ))).time =
      sampleStateOff.time + 3 * 2 := by
  have hpos : ∀ d ∈ [(1:ℝ)], 0 < d := by norm_num
  have H := C5_update_time_accumulation sampleStateOff [(1:ℝ)] 3 2 hpos
  exact ⟨hpos, H.1, by rw [H.2 rfl]; norm_num⟩

/-- C9: toggling showLensing leaves the physics of UpdateSimulation unchanged:
UpdateSimulation commutes with setting showLensing, so in particular the time
and timeDilation it produces do not depend on the toggle. -/
theorem C9_lensing_toggle_physics (sim : SimulationState) (δ : ℝ) (b : Bool) :
    UpdateSimulation { sim with showLensing := b } δ =
      { UpdateSimulation sim δ with showLensing := b } ∧
    (UpdateSimulation { sim with showLensing := b } δ).time =
      (UpdateSimulation sim δ).time ∧
    (UpdateSimulation { sim with showLensing := b } δ).timeDilation =
      (UpdateSimulation sim δ).timeDilation := by
  have h : UpdateSimulation { sim with showLensing := b } δ =
      { UpdateSimulation sim δ with showLensing := b } := by
    unfold UpdateSimulation
    by_cases hte : sim.showTimeEffects <;> simp [hte]
  exact ⟨h, by rw [h], by rw [h]⟩

/-- C10: UpdateSimulation mutates at most time and timeDilation: camera, black
hole, disk, stars and the three toggles are returned unchanged, and with
showTimeEffects off even timeDilation keeps its previous value. -/
theorem C10_update_frame_effect (sim : SimulationState) (δ : ℝ) :
    (UpdateSimulation sim δ).camera = sim.camera ∧
    (UpdateSimulation sim δ).blackHole = sim.blackHole ∧
    (UpdateSimulation sim δ).disk = sim.disk ∧
    (UpdateSimulation sim δ).stars = sim.stars ∧
    (UpdateSimulation sim δ).showLensing = sim.showLensing ∧
    (UpdateSimulation sim δ).showDisk = sim.showDisk ∧
    (UpdateSimulation sim δ).showTimeEffects = sim.showTimeEffects ∧
    (sim.showTimeEffects = false →
      (UpdateSimulation sim δ).timeDilation = sim.timeDilation) := by
  unfold UpdateSimulation
  by_cases hte : sim.showTimeEffects <;> simp [hte]

/-- An imperative guarded append loop is a filterMap. -/
theorem foldl_guard_filterMap {α β : Type} (p : α → Prop) [DecidablePred p] (g : α → β) :
    ∀ (l : List α) (acc : List β),
      List.foldl (fun a s => if p s then a ++ [g s] else a) acc l =
        acc ++ List.filterMap (fun s => if p s then some (g s) else none) l := by
  intro l
  induction l with
  | nil => intro acc; simp
  | cons s t ih =>
    intro acc
    by_cases h : p s <;> simp [List.foldl_cons, h, ih]

/-- DrawStarfield as a filterMap over the stars. -/
theorem drawStarfield_eq_filterMap (sim : SimulationState) :
    DrawStarfield sim = List.filterMap (fun s =>
      if sim.blackHole.schwarzschildRadius * 2 <
          Vector3Distance s.position sim.blackHole.position
      then some (DrawCmd.cube s.position 0.2 0.2 0.2 s.color) else none) sim.stars := by
  unfold DrawStarfield
  rw [foldl_guard_filterMap
    (fun s => sim.blackHole.schwarzschildRadius * 2 <
      Vector3Distance s.position sim.blackHole.position)
    (fun s => DrawCmd.cube s.position 0.2 0.2 0.2 s.color) sim.stars []]
  simp

/-- C8: from the initialized SimulationState (any outcome of the random star
draws), the starfield draw skips a star exactly when its distance to the black
hole center (the origin) is ≤ 2×schwarzschildRadius = 4, and draws every other
star as a small cube at its stored position with its stored color. -/
theorem C8_starfield_skip (starPosInt : ℕ → ℤ × ℤ × ℤ) (starBrightInt : ℕ → ℤ) :
    DrawStarfield (InitSimulation starPosInt starBrightInt) =
      List.filterMap (fun s =>
        if Vector3Distance s.position ⟨0, 0, 0⟩ ≤ 4 then none
        else some (DrawCmd.cube s.position 0.2 0.2 0.2 s.color))
        (InitSimulation starPosInt starBrightInt).stars := by
  rw [drawStarfield_eq_filterMap]
  have hbh : (InitSimulation starPosInt starBrightInt).blackHole =
      ⟨⟨0, 0, 0⟩, 1, 2, 6⟩ := rfl
  simp only [hbh]
  congr 1
  funext s
  rcases le_or_lt (Vector3Distance s.position ⟨0, 0, 0⟩) 4 with h | h
  · rw [if_neg (by simp only [not_lt]; linarith), if_pos h]
  · rw [if_pos (by linarith), if_neg (not_le.2 h)]

end BlackHoleSim
